import Mathlib

/-!
Verification development for the `email-newsletter` service: the idempotent
command gateway (`src/idempotency/persistence.rs`), the publish endpoint
(`src/routes/admin/newsletters/post.rs`) and the delivery worker, embedded
shallowly over an explicit relational-store state.  Postgres transactions are
modelled by explicit state passing: a transaction is a snapshot `Db` carrying
the uncommitted writes; committing adopts that snapshot, aborting discards it.
Concurrent requests are modelled as serialized interleavings, which is what
the store's row locking produces for the operations involved.
-/

namespace EmailNewsletter

/-- `uuid::Uuid` modelled as a natural number. -/
abbrev Uuid := Nat

/-- A byte string (`Vec<u8>` / `Bytes`) modelled as a list of naturals. -/
abbrev Bytes := List Nat

/-- Bytes of a Rust `&str` (ASCII contents in every value this code stores). -/
def strBytes (s : String) : Bytes := s.data.map Char.toNat

/-- The Postgres composite type `header_pair` of `persistence.rs`. -/
structure HeaderPairRecord where
  name : String
  value : Bytes
deriving DecidableEq

/-- The observable data of an `actix_web::HttpResponse`: status code, header
pairs in order, body bytes. -/
structure HttpResponseData where
  status : Nat
  headers : List HeaderPairRecord
  body : Bytes
deriving DecidableEq

/-- The three nullable response columns of the `idempotency` table; they are
set together by `save_response`, so they are modelled as one optional group. -/
structure SavedResponse where
  response_status_code : Int
  response_headers : List HeaderPairRecord
  response_body : Bytes
deriving DecidableEq

/-- One row of the `idempotency` table (the `created_at` column plays no role
in any of the queries and is omitted). -/
structure IdemRow where
  user_id : Uuid
  idempotency_key : String
  saved : Option SavedResponse
deriving DecidableEq

/-- One row of the `newsletter_issues` table (`published_at` omitted: unread). -/
structure NewsletterIssueRow where
  newsletter_issue_id : Uuid
  title : String
  text_content : String
  html_content : String
deriving DecidableEq

/-- One row of the `issue_delivery_queue` table. -/
structure IssueDeliveryQueueRow where
  newsletter_issue_id : Uuid
  subscriber_email : String
deriving DecidableEq

/-- One row of the `subscriptions` table, restricted to the columns the
publish path reads. -/
structure SubscriptionRow where
  email : String
  status : String
deriving DecidableEq

/-- The relational store state. -/
structure Db where
  idempotency : List IdemRow
  newsletter_issues : List NewsletterIssueRow
  issue_delivery_queue : List IssueDeliveryQueueRow
  subscriptions : List SubscriptionRow
deriving DecidableEq

/-- Row matching for the `WHERE user_id = $1 AND idempotency_key = $2` clauses. -/
def idemMatch (u : Uuid) (k : String) (r : IdemRow) : Bool :=
  r.user_id == u && r.idempotency_key == k

/-- The row (if any) the idempotency queries select for a pair. -/
def idemLookup (l : List IdemRow) (u : Uuid) (k : String) : Option (Option SavedResponse) :=
  (l.find? (idemMatch u k)).map (·.saved)

/-- Rust `u16 as i16` (how `save_response` stores the status in a SMALLINT). -/
def u16AsI16 (s : Nat) : Int :=
  if s % 65536 < 32768 then ((s % 65536 : Nat) : Int) else ((s % 65536 : Nat) : Int) - 65536

/-- Rust `i16::try_into::<u16>()`: fails exactly on negative values. -/
def i16TryIntoU16 (i : Int) : Option Nat :=
  if 0 ≤ i then some i.toNat else none

/-- `StatusCode::from_u16`: accepts exactly the codes in `[100, 1000)`. -/
def statusCodeFromU16 (c : Nat) : Option Nat :=
  if 100 ≤ c && c < 1000 then some c else none

/-- sqlx decode failure produced by the `as "column!"` not-null override when a
selected column is NULL. -/
def decodeNullMsg : String := "unexpected null; error occurred while decoding"

/-- The error attached by `try_processing` when a duplicate finds no cached
response. -/
def missingSavedResponseMsg : String := "We expected a saved response but didn't find it"

/-- `get_saved_response` of `src/idempotency/persistence.rs` (lines 23-55):
select the row for the pair; absent row gives `Ok(None)`; a present row must
decode its not-null-asserted response columns (NULL columns are a decode
error), convert the stored SMALLINT back through `try_into` and
`StatusCode::from_u16`, and rebuild the response with the headers appended in
stored order and the stored body. -/
def get_saved_response (db : Db) (idempotency_key : String) (user_id : Uuid) :
    Except String (Option HttpResponseData) :=
  match db.idempotency.find? (idemMatch user_id idempotency_key) with
  | none => .ok none
  | some r =>
    match r.saved with
    | none => .error decodeNullMsg
    | some s =>
      match i16TryIntoU16 s.response_status_code with
      | none => .error "out of range integral type conversion attempted"
      | some c =>
        match statusCodeFromU16 c with
        | none => .error "invalid status code"
        | some code => .ok (some ⟨code, s.response_headers, s.response_body⟩)

/-- The `INSERT INTO idempotency ... ON CONFLICT DO NOTHING` of
`try_processing`, returning `rows_affected` and the transaction state after
the statement. -/
def insertIdempotencyIfAbsent (tx : Db) (user_id : Uuid) (idempotency_key : String) :
    Nat × Db :=
  if (tx.idempotency.find? (idemMatch user_id idempotency_key)).isSome then
    (0, tx)
  else
    (1, { tx with idempotency := tx.idempotency ++ [⟨user_id, idempotency_key, none⟩] })

/-- `NextAction` of `src/idempotency/persistence.rs`.  `startProcessing`
carries the open transaction (here: the snapshot holding the uncommitted
claim row). -/
inductive NextAction where
  | startProcessing (tx : Db)
  | returnSavedResponse (response : HttpResponseData)
deriving DecidableEq

/-- `try_processing` of `src/idempotency/persistence.rs` (lines 111-141):
begin a transaction, run the conditional insert; if it affected a row return
the transaction as `StartProcessing`; otherwise fetch the saved response from
the pool and return it, erroring when none is found.  The transaction of the
non-owner branch is dropped uncommitted. -/
def try_processing (db : Db) (idempotency_key : String) (user_id : Uuid) :
    Except String NextAction :=
  let tx := db
  let (n_inserted_rows, tx) := insertIdempotencyIfAbsent tx user_id idempotency_key
  if n_inserted_rows > 0 then
    .ok (.startProcessing tx)
  else
    match get_saved_response db idempotency_key user_id with
    | .error e => .error e
    | .ok (some saved_response) => .ok (.returnSavedResponse saved_response)
    | .ok none => .error missingSavedResponseMsg

/-- The `UPDATE idempotency SET response_* ...` of `save_response`, applied to
every row matching the pair (SQL `UPDATE ... WHERE` semantics). -/
def updateSaved (l : List IdemRow) (u : Uuid) (k : String) (s : SavedResponse) :
    List IdemRow :=
  l.map (fun r => if idemMatch u k r then { r with saved := some s } else r)

/-- `save_response` of `src/idempotency/persistence.rs` (lines 57-99): split
the response into head and body bytes, store the status as `u16 as i16`
together with the header pairs in iteration order and the body, commit the
transaction, and return the response reassembled from the same head and body.
(The body is already concrete bytes here, so `to_bytes` cannot fail.)  The
returned `Db` is the committed store state. -/
def save_response (tx : Db) (idempotency_key : String) (user_id : Uuid)
    (http_response : HttpResponseData) : HttpResponseData × Db :=
  let saved : SavedResponse :=
    ⟨u16AsI16 http_response.status, http_response.headers, http_response.body⟩
  (http_response,
   { tx with idempotency := updateSaved tx.idempotency user_id idempotency_key saved })

/-- The `actix_web::Error` values the publish route produces: `e400` wraps a
validation failure as a client error, `e500` wraps any other failure as an
internal server error (`routing_helpers`; only its callers are under `src/`,
and the spec maps ValidationError to a client error and StorageError to a
server error). -/
inductive AppError where
  | badRequest (msg : String)
  | internalError (msg : String)
deriving DecidableEq

/-- Modelled from the spec: `see_other` of `routing_helpers` is not under
`src/`; per the route's use it builds the 303 See Other redirect carrying a
`location` header and an empty body. -/
def see_other (location : String) : HttpResponseData :=
  ⟨303, [⟨"location", strBytes location⟩], []⟩

/-- Modelled from the spec: the `IdempotencyKey` validation module of
`src/idempotency/` is not under `src/` (only `persistence.rs` and the callers
are).  Spec: "a validated opaque token: non-empty, bounded length (≤ 50
characters in the reference system), characters drawn from a restricted safe
set"; the safe set is taken as ASCII alphanumerics plus the hyphen (the UUID
string format the callers submit). -/
def safeChar (c : Char) : Bool := c.isAlphanum || c == '-'

/-- Modelled from the spec: validity of an idempotency key string. -/
def idempotencyKeyValid (s : String) : Bool :=
  !s.isEmpty && s.length ≤ 50 && s.data.all safeChar

/-- Modelled from the spec: `TryFrom<String> for IdempotencyKey` — "Parsing
this from untrusted input is a pure validation step with a typed failure
(InvalidKey) on rejection; it does not touch storage." -/
def idempotencyKeyTryFrom (s : String) : Except String String :=
  if idempotencyKeyValid s then .ok s else .error "invalid idempotency key"

/-- `FormData` of `src/routes/admin/newsletters/post.rs`. -/
structure FormData where
  title : String
  text_content : String
  html_content : String
  idempotency_key : String
deriving DecidableEq

/-- One `EmailClient::send_email` invocation observed at the EmailSender
boundary: recipient, the issue content passed, and whether the provider
accepted the send. -/
structure EmailSend where
  recipient : String
  title : String
  html_content : String
  text_content : String
  delivered : Bool
deriving DecidableEq

/-- `get_confirmed_subscribers` of `post.rs` (lines 138-164): select the email
of every subscription in status `confirmed`, in row order, parsing each with
`SubscriberEmail::parse` and keeping failures as errors to be skipped with a
warning.  `SubscriberEmail` is an external validation collaborator, so the
parse check is the parameter `validEmail`. -/
def get_confirmed_subscribers (db : Db) (validEmail : String → Bool) :
    List (Except String String) :=
  (db.subscriptions.filter (fun s => s.status == "confirmed")).map
    (fun s => if validEmail s.email then .ok s.email else .error s.email)

/-- The send loop of `publish_newsletter` (lines 97-123): for each confirmed
subscriber in order, invoke the EmailSender (outcome given by `sendOk`); a
failed send aborts the loop with an error (`?`), an invalid stored address is
skipped.  Returns whether the loop completed and the invocations made. -/
def send_loop (subscribers : List (Except String String)) (sendOk : String → Bool)
    (title html_content text_content : String) : Bool × List EmailSend :=
  match subscribers with
  | [] => (true, [])
  | .error _ :: rest => send_loop rest sendOk title html_content text_content
  | .ok email :: rest =>
    if sendOk email then
      let (ok, sent) := send_loop rest sendOk title html_content text_content
      (ok, ⟨email, title, html_content, text_content, true⟩ :: sent)
    else
      (false, [⟨email, title, html_content, text_content, false⟩])

deriving instance DecidableEq for Except

/-- Result of one `publish_newsletter` request: the HTTP-level outcome, the
committed store state after the request, and the EmailSender invocations it
made. -/
structure PublishResult where
  response : Except AppError HttpResponseData
  db : Db
  sent : List EmailSend
deriving DecidableEq

/-- `publish_newsletter` of `src/routes/admin/newsletters/post.rs` (lines
65-130), from the point after authentication (an excluded collaborator):
validate the idempotency key (`e400` on rejection), call `try_processing`
(`e500` on error); replay a saved response directly; as owner, send the issue
synchronously to every confirmed subscriber, aborting (and dropping the
transaction uncommitted) on the first send failure, and otherwise store the
303 redirect via `save_response`, committing the claim. -/
def publish_newsletter (db : Db) (form : FormData) (user_id : Uuid)
    (validEmail sendOk : String → Bool) : PublishResult :=
  match idempotencyKeyTryFrom form.idempotency_key with
  | .error e => ⟨.error (.badRequest e), db, []⟩
  | .ok idempotency_key =>
    match try_processing db idempotency_key user_id with
    | .error e => ⟨.error (.internalError e), db, []⟩
    | .ok (.returnSavedResponse response) => ⟨.ok response, db, []⟩
    | .ok (.startProcessing tx) =>
      let confirmed_subscribers := get_confirmed_subscribers db validEmail
      let (allOk, sent) :=
        send_loop confirmed_subscribers sendOk form.title form.html_content form.text_content
      if allOk then
        let (response, committed) :=
          save_response tx idempotency_key user_id (see_other "/admin/newsletters")
        ⟨.ok response, committed, sent⟩
      else
        ⟨.error (.internalError "Failed to send newsletter issue"), db, sent⟩

/-- `insert_newsletter_issue` of `post.rs` (lines 167-194): insert one issue
row inside the given transaction.  The freshly generated `Uuid::new_v4` is a
parameter. -/
def insert_newsletter_issue (tx : Db) (newsletter_issue_id : Uuid)
    (title text_content html_content : String) : Db :=
  { tx with newsletter_issues :=
      tx.newsletter_issues ++ [⟨newsletter_issue_id, title, text_content, html_content⟩] }

/-- `enqueue_delivery_tasks` of `post.rs` (lines 198-217):
`INSERT INTO issue_delivery_queue (newsletter_issue_id, subscriber_email)
SELECT $1, email FROM subscriptions WHERE status = 'confirmed'` inside the
given transaction. -/
def enqueue_delivery_tasks (tx : Db) (newsletter_issue_id : Uuid) : Db :=
  let new_rows : List IssueDeliveryQueueRow :=
    (tx.subscriptions.filter (fun s => s.status == "confirmed")).map
      (fun s => ⟨newsletter_issue_id, s.email⟩)
  { tx with issue_delivery_queue := tx.issue_delivery_queue ++ new_rows }

/-- `ExecutionOutcome` of `issue_delivery_worker` (declared by
`tests/api/helpers.rs` and `main.rs`). -/
inductive ExecutionOutcome where
  | emptyQueue
  | taskCompleted
  | taskFailed
deriving DecidableEq

/-- Modelled from the spec: the worker's dequeue step —
`issue_delivery_worker.rs` is not under `src/` (only `main.rs` and the test
helpers reference it).  Spec §4.3 step 1: "Select at most one DeliveryTask
row, joined with its Issue", under a lock that skips rows held by concurrent
workers (lock contention is absent in this serialized model). -/
def dequeue_task (db : Db) : Option (IssueDeliveryQueueRow × NewsletterIssueRow) :=
  (db.issue_delivery_queue.filterMap (fun t =>
    match db.newsletter_issues.find?
        (fun i => i.newsletter_issue_id == t.newsletter_issue_id) with
    | some i => some (t, i)
    | none => none)).head?

/-- Modelled from the spec: deleting a DeliveryTask row — SQL DELETE of every
row matching the task's (issue, recipient) pair. -/
def delete_task (db : Db) (task : IssueDeliveryQueueRow) : Db :=
  { db with issue_delivery_queue :=
      db.issue_delivery_queue.filter (fun r => !(r == task)) }

/-- Modelled from the spec: `try_execute_task` of `issue_delivery_worker.rs`,
which is not under `src/`.  Spec §4.3: no row gives `EmptyQueue` with no
effect; otherwise invoke the EmailSender with the recipient and the issue's
title/HTML/text; on success delete the row and report `TaskCompleted`; on a
transient failure keep the row and report `TaskFailed`; a recipient address
failing validation (`validEmail`) is skipped with a warning and its row
removed.  Returns the outcome, the committed store state, and the EmailSender
invocations. -/
def try_execute_task (db : Db) (validEmail sendOk : String → Bool) :
    ExecutionOutcome × Db × List EmailSend :=
  match dequeue_task db with
  | none => (.emptyQueue, db, [])
  | some (task, issue) =>
    if validEmail task.subscriber_email then
      if sendOk task.subscriber_email then
        (.taskCompleted, delete_task db task,
         [⟨task.subscriber_email, issue.title, issue.html_content, issue.text_content, true⟩])
      else
        (.taskFailed, db,
         [⟨task.subscriber_email, issue.title, issue.html_content, issue.text_content, false⟩])
    else
      (.taskCompleted, delete_task db task, [])

/-- An operation of the system as observed at the store: a full
`publish_newsletter` request, or one worker iteration.  The function
parameters carry the external collaborators' behaviour for that operation. -/
inductive Op where
  | publish (form : FormData) (user_id : Uuid) (validEmail sendOk : String → Bool)
  | workerIteration (validEmail sendOk : String → Bool)

/-- The committed store state after one operation. -/
def applyOp (db : Db) : Op → Db
  | .publish form user_id validEmail sendOk =>
    (publish_newsletter db form user_id validEmail sendOk).db
  | .workerIteration validEmail sendOk =>
    (try_execute_task db validEmail sendOk).2.1

/-- The committed store state after a serialized sequence of operations. -/
def runOps (db : Db) : List Op → Db
  | [] => db
  | op :: ops => runOps (applyOp db op) ops

/-- Whether an operation, started at state `db`, is a publish request that
claims ownership of `(user_id, idempotency_key)` (its conditional insert
affects a row) and runs the owning business logic to commit. -/
def isOwnerRun (db : Db) (u : Uuid) (k : String) : Op → Bool
  | .publish form user_id validEmail sendOk =>
    user_id == u &&
    (match idempotencyKeyTryFrom form.idempotency_key with
     | .ok k2 => k2 == k
     | .error _ => false) &&
    (idemLookup db.idempotency u k).isNone &&
    (send_loop (get_confirmed_subscribers db validEmail) sendOk
      form.title form.html_content form.text_content).1
  | .workerIteration _ _ => false

/-- Number of operations of a trace that claim `(u, k)` and commit as owner. -/
def ownerRuns (db : Db) (ops : List Op) (u : Uuid) (k : String) : Nat :=
  match ops with
  | [] => 0
  | op :: rest =>
    (if isOwnerRun db u k op then 1 else 0) + ownerRuns (applyOp db op) rest u k

/-- The saved-response group `save_response` writes for the route's
`see_other("/admin/newsletters")` redirect. -/
def savedRedirect : SavedResponse :=
  ⟨303, [⟨"location", strBytes "/admin/newsletters"⟩], []⟩

/-- Number of idempotency rows matching a pair. -/
def pairCount (l : List IdemRow) (u : Uuid) (k : String) : Nat :=
  l.countP (idemMatch u k)

/-- The table invariant the unique key `(user_id, idempotency_key)` enforces. -/
def IdemWf (db : Db) : Prop :=
  ∀ u k, pairCount db.idempotency u k ≤ 1

/-- Store with two confirmed subscribers and nothing else. -/
def twoSubsDb : Db :=
  ⟨[], [], [], [⟨"b@x", "confirmed"⟩, ⟨"a@x", "confirmed"⟩]⟩

/-- The publish form of the retry scenario. -/
def retryForm : FormData := ⟨"T", "text", "html", "abc123"⟩

/-- First submission: the send to `b@x` succeeds, the send to `a@x` fails. -/
def retryRun1 : PublishResult :=
  publish_newsletter twoSubsDb retryForm 1 (fun _ => true) (fun e => e == "b@x")

/-- Retried submission against the state the first one left: all sends succeed. -/
def retryRun2 : PublishResult :=
  publish_newsletter retryRun1.db retryForm 1 (fun _ => true) (fun _ => true)

/-- A store holding a claimed-but-unfinished idempotency record (the in-flight
duplicate race of spec §4.1/§9). -/
def pendingClaimDb : Db := ⟨[⟨1, "abc123", none⟩], [], [], []⟩

end EmailNewsletter

namespace EmailNewsletter

/-! ## Basic lemmas -/

lemma idemMatch_set_saved (u : Uuid) (k : String) (r : IdemRow) (s : SavedResponse) :
    idemMatch u k { r with saved := some s } = idemMatch u k r := rfl

lemma idemMatch_self (u : Uuid) (k : String) (v : Option SavedResponse) :
    idemMatch u k ⟨u, k, v⟩ = true := by
  simp [idemMatch]

lemma u16AsI16_of_lt {s : Nat} (h : s < 32768) : u16AsI16 s = (s : Int) := by
  unfold u16AsI16
  rw [Nat.mod_eq_of_lt (by omega)]
  simp [h]

lemma i16TryIntoU16_u16AsI16 {s : Nat} (h : s < 32768) :
    i16TryIntoU16 (u16AsI16 s) = some s := by
  rw [u16AsI16_of_lt h]
  simp [i16TryIntoU16]

lemma find?_updateSaved (l : List IdemRow) (u : Uuid) (k : String) (s : SavedResponse) :
    (updateSaved l u k s).find? (idemMatch u k) =
      (l.find? (idemMatch u k)).map (fun r => { r with saved := some s }) := by
  induction l with
  | nil => rfl
  | cons r l ih =>
    simp only [updateSaved, List.map_cons] at ih ⊢
    by_cases h : idemMatch u k r = true
    · rw [if_pos h, List.find?_cons_of_pos _ (by rw [idemMatch_set_saved]; exact h),
        List.find?_cons_of_pos _ h]
      rfl
    · rw [if_neg h, List.find?_cons_of_neg _ (by simpa using h),
        List.find?_cons_of_neg _ (by simpa using h)]
      exact ih

lemma find?_updateSaved_ne (l : List IdemRow) {u u2 : Uuid} {k k2 : String}
    (s : SavedResponse) (hne : ¬(u2 = u ∧ k2 = k)) :
    (updateSaved l u2 k2 s).find? (idemMatch u k) = l.find? (idemMatch u k) := by
  induction l with
  | nil => rfl
  | cons r l ih =>
    simp only [updateSaved, List.map_cons] at ih ⊢
    by_cases h : idemMatch u2 k2 r = true
    · have h1 : idemMatch u k r = false := by
        cases hmk : idemMatch u k r
        · rfl
        · exfalso
          apply hne
          simp only [idemMatch, Bool.and_eq_true, beq_iff_eq] at h hmk
          exact ⟨h.1.symm.trans hmk.1, h.2.symm.trans hmk.2⟩
      rw [if_pos h, List.find?_cons_of_neg _ (by rw [idemMatch_set_saved]; simp [h1]),
        List.find?_cons_of_neg _ (by simp [h1])]
      exact ih
    · rw [if_neg h]
      by_cases h2 : idemMatch u k r = true
      · rw [List.find?_cons_of_pos _ h2, List.find?_cons_of_pos _ h2]
      · rw [List.find?_cons_of_neg _ (by simpa using h2),
          List.find?_cons_of_neg _ (by simpa using h2)]
        exact ih

/-- Characterization of the owner branch of `try_processing`: `StartProcessing`
is returned exactly when no row exists for the pair, and the transaction it
carries holds exactly the conditional insert. -/
lemma try_processing_start_iff (db : Db) (k : String) (u : Uuid) (tx : Db) :
    try_processing db k u = .ok (.startProcessing tx) ↔
      (db.idempotency.find? (idemMatch u k) = none ∧
        tx = { db with idempotency := db.idempotency ++ [⟨u, k, none⟩] }) := by
  cases h : db.idempotency.find? (idemMatch u k) with
  | none =>
    simp only [try_processing, insertIdempotencyIfAbsent, h, Option.isSome_none,
      Bool.false_eq_true, if_false, gt_iff_lt, Nat.zero_lt_one, if_true,
      Except.ok.injEq, NextAction.startProcessing.injEq, true_and]
    exact eq_comm
  | some r =>
    constructor
    · intro hx
      exfalso
      simp only [try_processing, insertIdempotencyIfAbsent, h, Option.isSome_some,
        if_true, gt_iff_lt, Nat.lt_irrefl, if_false] at hx
      cases hg : get_saved_response db k u with
      | error e => rw [hg] at hx; cases hx
      | ok o =>
        cases o with
        | none => rw [hg] at hx; cases hx
        | some saved => rw [hg] at hx; cases hx
    · rintro ⟨h1, -⟩
      exact Option.noConfusion h1

lemma worker_idempotency_frame (db : Db) (validEmail sendOk : String → Bool) :
    ((try_execute_task db validEmail sendOk).2.1).idempotency = db.idempotency := by
  unfold try_execute_task
  cases hdeq : dequeue_task db with
  | none => rfl
  | some ti =>
    cases ti with
    | mk task issue =>
      by_cases hv : validEmail task.subscriber_email = true
      · by_cases hs : sendOk task.subscriber_email = true
        · simp [hv, hs, delete_task]
        · simp [hv, hs]
      · simp [hv, delete_task]

/-- The `SavedResponse` group the committed owner run writes is the redirect. -/
lemma saved_of_redirect :
    (⟨u16AsI16 (see_other "/admin/newsletters").status,
      (see_other "/admin/newsletters").headers,
      (see_other "/admin/newsletters").body⟩ : SavedResponse) = savedRedirect := by
  decide

lemma idemMatch_row_false {u u2 : Uuid} {k k2 : String}
    (hne : ¬(u2 = u ∧ k2 = k)) (v : Option SavedResponse) :
    idemMatch u k ⟨u2, k2, v⟩ = false := by
  by_cases hu : u2 = u
  · have hkk : ¬k2 = k := fun hc => hne ⟨hu, hc⟩
    simp [idemMatch, hu, hkk]
  · simp [idemMatch, hu]

/-- A committed owner run attaches the redirect to the pair's fresh record. -/
lemma publish_idemLookup_owner (db : Db) (form : FormData) (u : Uuid)
    (validEmail sendOk : String → Bool) (k : String)
    (hk : idempotencyKeyTryFrom form.idempotency_key = .ok k)
    (habsent : db.idempotency.find? (idemMatch u k) = none)
    (hloop : (send_loop (get_confirmed_subscribers db validEmail) sendOk
      form.title form.html_content form.text_content).1 = true) :
    idemLookup (publish_newsletter db form u validEmail sendOk).db.idempotency u k =
      some (some savedRedirect) := by
  have hstart : try_processing db k u =
      .ok (.startProcessing
        { db with idempotency := db.idempotency ++ [⟨u, k, none⟩] }) :=
    (try_processing_start_iff db k u _).2 ⟨habsent, rfl⟩
  simp only [publish_newsletter, hk, hstart]
  cases hl : send_loop (get_confirmed_subscribers db validEmail) sendOk
      form.title form.html_content form.text_content with
  | mk allOk sent =>
    rw [hl] at hloop
    cases hloop
    simp only [if_true, save_response, idemLookup]
    rw [find?_updateSaved, List.find?_append, habsent]
    rw [List.find?_cons_of_pos _ (idemMatch_self u k none)]
    simp [saved_of_redirect]

/-- A publish that is not a committed owner run for a pair leaves the pair's
record (or absence of one) exactly as it was. -/
lemma publish_idemLookup_frame (db : Db) (form : FormData) (u2 : Uuid)
    (validEmail sendOk : String → Bool) (u : Uuid) (k : String)
    (hnotowner : isOwnerRun db u k (.publish form u2 validEmail sendOk) = false) :
    idemLookup (publish_newsletter db form u2 validEmail sendOk).db.idempotency u k =
      idemLookup db.idempotency u k := by
  cases hk : idempotencyKeyTryFrom form.idempotency_key with
  | error e => simp [publish_newsletter, hk]
  | ok k2 =>
    cases htp : try_processing db k2 u2 with
    | error e => simp [publish_newsletter, hk, htp]
    | ok act =>
      cases act with
      | returnSavedResponse resp => simp [publish_newsletter, hk, htp]
      | startProcessing tx =>
        obtain ⟨habsent2, htx⟩ := (try_processing_start_iff db k2 u2 tx).1 htp
        subst htx
        simp only [publish_newsletter, hk, htp]
        cases hl : send_loop (get_confirmed_subscribers db validEmail) sendOk
            form.title form.html_content form.text_content with
        | mk allOk sent =>
          cases allOk with
          | false => rfl
          | true =>
            by_cases hpair : u2 = u ∧ k2 = k
            · exfalso
              obtain ⟨hu, hkk⟩ := hpair
              subst hu
              subst hkk
              have : isOwnerRun db u2 k2 (.publish form u2 validEmail sendOk) = true := by
                simp [isOwnerRun, hk, idemLookup, habsent2, hl]
              rw [hnotowner] at this
              cases this
            · simp only [if_true, save_response, idemLookup]
              rw [find?_updateSaved_ne _ _ hpair, List.find?_append,
                List.find?_cons_of_neg _ (by simp [idemMatch_row_false hpair]),
                List.find?_nil, Option.or_none]

/-- An operation that commits as owner of a pair leaves its record finished
with the redirect. -/
lemma applyOp_lookup_owner (db : Db) (op : Op) (u : Uuid) (k : String)
    (h : isOwnerRun db u k op = true) :
    idemLookup (applyOp db op).idempotency u k = some (some savedRedirect) := by
  cases op with
  | workerIteration ve so => cases h
  | publish form u2 ve so =>
    cases hk : idempotencyKeyTryFrom form.idempotency_key with
    | error e => rw [isOwnerRun] at h; rw [hk] at h; simp at h
    | ok k2 =>
      rw [isOwnerRun] at h
      rw [hk] at h
      simp only [Bool.and_eq_true, beq_iff_eq] at h
      obtain ⟨⟨⟨hu, hkk⟩, hnone⟩, hloop⟩ := h
      subst hu
      subst hkk
      have habsent : db.idempotency.find? (idemMatch u2 k2) = none := by
        unfold idemLookup at hnone
        cases hf : db.idempotency.find? (idemMatch u2 k2) with
        | none => rfl
        | some r => rw [hf] at hnone; cases hnone
      exact publish_idemLookup_owner db form u2 ve so k2 hk habsent hloop

/-- An operation that is not a committed owner run of a pair leaves its
record (or absence of one) unchanged. -/
lemma applyOp_lookup_frame (db : Db) (op : Op) (u : Uuid) (k : String)
    (h : isOwnerRun db u k op = false) :
    idemLookup (applyOp db op).idempotency u k = idemLookup db.idempotency u k := by
  cases op with
  | workerIteration ve so =>
    show idemLookup ((try_execute_task db ve so).2.1).idempotency u k = _
    rw [worker_idempotency_frame]
  | publish form u2 ve so => exact publish_idemLookup_frame db form u2 ve so u k h

lemma isOwnerRun_false_of_present {db : Db} {u : Uuid} {k : String}
    {v : Option SavedResponse} (h : idemLookup db.idempotency u k = some v)
    (op : Op) : isOwnerRun db u k op = false := by
  cases op with
  | workerIteration ve so => rfl
  | publish form u2 ve so =>
    rw [isOwnerRun]
    rw [h]
    simp

/-- An existing record for a pair survives any operation with its value,
untouched: records are never deleted and a cached response, once attached, is
never changed. -/
lemma applyOp_lookup_of_present {db : Db} {u : Uuid} {k : String}
    {v : Option SavedResponse} (h : idemLookup db.idempotency u k = some v)
    (op : Op) :
    idemLookup (applyOp db op).idempotency u k = some v := by
  rw [applyOp_lookup_frame db op u k (isOwnerRun_false_of_present h op)]
  exact h

lemma runOps_lookup_of_present {u : Uuid} {k : String}
    {v : Option SavedResponse} :
    ∀ (ops : List Op) (db : Db), idemLookup db.idempotency u k = some v →
      idemLookup (runOps db ops).idempotency u k = some v := by
  intro ops
  induction ops with
  | nil => intro db h; exact h
  | cons op rest ih =>
    intro db h
    exact ih (applyOp db op) (applyOp_lookup_of_present h op)

lemma ownerRuns_zero_of_present {u : Uuid} {k : String}
    {v : Option SavedResponse} :
    ∀ (ops : List Op) (db : Db), idemLookup db.idempotency u k = some v →
      ownerRuns db ops u k = 0 := by
  intro ops
  induction ops with
  | nil => intro db _; rfl
  | cons op rest ih =>
    intro db h
    rw [ownerRuns]
    rw [isOwnerRun_false_of_present h op]
    simp only [if_false, Bool.false_eq_true]
    rw [ih (applyOp db op) (applyOp_lookup_of_present h op)]

lemma pairCount_updateSaved (l : List IdemRow) (u2 : Uuid) (k2 : String)
    (s : SavedResponse) (u : Uuid) (k : String) :
    pairCount (updateSaved l u2 k2 s) u k = pairCount l u k := by
  unfold pairCount updateSaved
  rw [List.countP_map]
  apply List.countP_congr
  intro r _
  simp only [Function.comp]
  by_cases h : idemMatch u2 k2 r = true
  · rw [if_pos h, idemMatch_set_saved]
  · rw [if_neg h]

/-- Every operation preserves the uniqueness of the pair. -/
lemma applyOp_preserves_wf (db : Db) (op : Op) (h : IdemWf db) :
    IdemWf (applyOp db op) := by
  cases op with
  | workerIteration ve so =>
    intro u k
    show pairCount ((try_execute_task db ve so).2.1).idempotency u k ≤ 1
    rw [worker_idempotency_frame]
    exact h u k
  | publish form u2 ve so =>
    intro u k
    show pairCount (publish_newsletter db form u2 ve so).db.idempotency u k ≤ 1
    cases hk : idempotencyKeyTryFrom form.idempotency_key with
    | error e =>
      simp only [publish_newsletter, hk]
      exact h u k
    | ok k2 =>
      cases htp : try_processing db k2 u2 with
      | error e =>
        simp only [publish_newsletter, hk, htp]
        exact h u k
      | ok act =>
        cases act with
        | returnSavedResponse resp =>
          simp only [publish_newsletter, hk, htp]
          exact h u k
        | startProcessing tx =>
          obtain ⟨habsent2, htx⟩ := (try_processing_start_iff db k2 u2 tx).1 htp
          subst htx
          simp only [publish_newsletter, hk, htp]
          cases hl : send_loop (get_confirmed_subscribers db ve) so
              form.title form.html_content form.text_content with
          | mk allOk sent =>
            cases allOk with
            | false => exact h u k
            | true =>
              simp only [if_true, save_response]
              rw [pairCount_updateSaved]
              unfold pairCount
              rw [List.countP_append]
              by_cases hpair : u2 = u ∧ k2 = k
              · obtain ⟨hu, hkk⟩ := hpair
                subst hu
                subst hkk
                have hz : List.countP (idemMatch u2 k2) db.idempotency = 0 := by
                  rw [List.countP_eq_zero]
                  exact fun r hr hmatch => List.find?_eq_none.1 habsent2 r hr hmatch
                rw [hz]
                simp [List.countP_singleton, idemMatch_self]
              · have hz : List.countP (idemMatch u k) [(⟨u2, k2, none⟩ : IdemRow)] = 0 := by
                  simp [List.countP_singleton, idemMatch_row_false hpair]
                rw [hz]
                simpa using h u k

/-- At most one operation of any serialized trace claims a fresh pair and
commits as its owner. -/
lemma ownerRuns_le_one {u : Uuid} {k : String} :
    ∀ (ops : List Op) (db : Db), idemLookup db.idempotency u k = none →
      ownerRuns db ops u k ≤ 1 := by
  intro ops
  induction ops with
  | nil => intro db _; exact Nat.zero_le 1
  | cons op rest ih =>
    intro db hnone
    rw [ownerRuns]
    cases hiso : isOwnerRun db u k op with
    | true =>
      rw [ownerRuns_zero_of_present rest (applyOp db op)
        (applyOp_lookup_owner db op u k hiso)]
      simp
    | false =>
      have hafter : idemLookup (applyOp db op).idempotency u k = none := by
        rw [applyOp_lookup_frame db op u k hiso]
        exact hnone
      simpa using ih (applyOp db op) hafter

/-! ## Claim theorems -/

/-- C2.  Round trip of the cached response: a response stored by
`save_response` under the transaction obtained from `try_processing` for a
`(user_id, idempotency_key)` pair is returned to the first caller unchanged,
and a subsequent `get_saved_response` for the same pair rebuilds a response
with the identical status code, the identical header pairs in the same order,
and identical body bytes.  (Statuses built by actix are in `[100, 1000)`.) -/
theorem cached_response_roundtrip (db : Db) (k : String) (u : Uuid) (tx : Db)
    (resp : HttpResponseData)
    (hstart : try_processing db k u = .ok (.startProcessing tx))
    (h1 : 100 ≤ resp.status) (h2 : resp.status < 1000) :
    (save_response tx k u resp).1 = resp ∧
      get_saved_response (save_response tx k u resp).2 k u = .ok (some resp) := by
  obtain ⟨hnone, htx⟩ := (try_processing_start_iff db k u tx).1 hstart
  subst htx
  refine ⟨rfl, ?_⟩
  have hfind : (updateSaved (db.idempotency ++ [⟨u, k, none⟩]) u k
      ⟨u16AsI16 resp.status, resp.headers, resp.body⟩).find? (idemMatch u k) =
      some ⟨u, k, some ⟨u16AsI16 resp.status, resp.headers, resp.body⟩⟩ := by
    rw [find?_updateSaved, List.find?_append, hnone]
    simp [idemMatch_self]
  simp only [save_response, get_saved_response]
  rw [hfind]
  simp [i16TryIntoU16_u16AsI16 (show resp.status < 32768 by omega),
    statusCodeFromU16, h1, h2]

/-- C2 witness: concrete round trip of a 303 redirect with one header and a
three-byte body. -/
theorem cached_response_roundtrip_witness :
    (save_response ⟨[⟨7, "abc123", none⟩], [], [], []⟩ "abc123" 7
        ⟨303, [⟨"location", strBytes "/admin/newsletters"⟩], [1, 2, 3]⟩).1 =
      ⟨303, [⟨"location", strBytes "/admin/newsletters"⟩], [1, 2, 3]⟩ ∧
      get_saved_response
          (save_response ⟨[⟨7, "abc123", none⟩], [], [], []⟩ "abc123" 7
            ⟨303, [⟨"location", strBytes "/admin/newsletters"⟩], [1, 2, 3]⟩).2 "abc123" 7 =
        .ok (some ⟨303, [⟨"location", strBytes "/admin/newsletters"⟩], [1, 2, 3]⟩) :=
  cached_response_roundtrip ⟨[], [], [], []⟩ "abc123" 7 ⟨[⟨7, "abc123", none⟩], [], [], []⟩
    ⟨303, [⟨"location", strBytes "/admin/newsletters"⟩], [1, 2, 3]⟩
    (by decide) (by decide) (by decide)

/-- C3.  One worker iteration: `try_execute_task` returns `EmptyQueue` leaving
the store untouched when no delivery task row exists; when a row is selected
(joined with its issue) and its address is valid, it invokes the EmailSender
with that recipient and the issue's content, and on success deletes the row
reporting `TaskCompleted`, while on a transient send failure it retains the
row — so the same task is selected again by a future poll — reporting
`TaskFailed`. -/
theorem try_execute_task_spec (db : Db) (validEmail sendOk : String → Bool) :
    (db.issue_delivery_queue = [] →
      try_execute_task db validEmail sendOk = (.emptyQueue, db, [])) ∧
    ∀ task issue, dequeue_task db = some (task, issue) →
      validEmail task.subscriber_email = true →
      (sendOk task.subscriber_email = true →
        try_execute_task db validEmail sendOk =
          (.taskCompleted, delete_task db task,
            [⟨task.subscriber_email, issue.title, issue.html_content,
              issue.text_content, true⟩])) ∧
      (sendOk task.subscriber_email = false →
        try_execute_task db validEmail sendOk =
          (.taskFailed, db,
            [⟨task.subscriber_email, issue.title, issue.html_content,
              issue.text_content, false⟩]) ∧
        dequeue_task (try_execute_task db validEmail sendOk).2.1 = some (task, issue)) := by
  refine ⟨?_, ?_⟩
  · intro hq
    unfold try_execute_task dequeue_task
    rw [hq]
    rfl
  · intro task issue hdeq hval
    refine ⟨?_, ?_⟩
    · intro hsend
      simp [try_execute_task, hdeq, hval, hsend]
    · intro hsend
      simp [try_execute_task, hdeq, hval, hsend]

/-- C3 witness: a queue with one task whose send fails — the task is retained
and selected again. -/
theorem try_execute_task_spec_witness :
    try_execute_task ⟨[], [⟨5, "T", "txt", "html"⟩], [⟨5, "r@x"⟩], []⟩
        (fun _ => true) (fun _ => false) =
      (.taskFailed, ⟨[], [⟨5, "T", "txt", "html"⟩], [⟨5, "r@x"⟩], []⟩,
        [⟨"r@x", "T", "html", "txt", false⟩]) ∧
      dequeue_task (try_execute_task ⟨[], [⟨5, "T", "txt", "html"⟩], [⟨5, "r@x"⟩], []⟩
          (fun _ => true) (fun _ => false)).2.1 =
        some (⟨5, "r@x"⟩, ⟨5, "T", "txt", "html"⟩) :=
  ((try_execute_task_spec ⟨[], [⟨5, "T", "txt", "html"⟩], [⟨5, "r@x"⟩], []⟩
      (fun _ => true) (fun _ => false)).2 ⟨5, "r@x"⟩ ⟨5, "T", "txt", "html"⟩
    (by decide) (by decide)).2 (by decide)

/-- C6.  `enqueue_delivery_tasks` inserts exactly one `issue_delivery_queue`
row per subscriber in status `confirmed`, each referencing the new issue's
identifier; with zero confirmed subscribers it inserts zero rows, and the
publish command still succeeds in that case. -/
theorem enqueue_one_row_per_confirmed (tx : Db) (issue_id : Uuid) :
    ((enqueue_delivery_tasks tx issue_id).issue_delivery_queue.length =
      tx.issue_delivery_queue.length +
        (tx.subscriptions.filter (fun s => s.status == "confirmed")).length) ∧
    (∀ s ∈ tx.subscriptions.filter (fun s => s.status == "confirmed"),
      (⟨issue_id, s.email⟩ : IssueDeliveryQueueRow) ∈
        (enqueue_delivery_tasks tx issue_id).issue_delivery_queue) ∧
    (∀ r ∈ (enqueue_delivery_tasks tx issue_id).issue_delivery_queue,
      r ∈ tx.issue_delivery_queue ∨ r.newsletter_issue_id = issue_id) ∧
    (tx.subscriptions.filter (fun s => s.status == "confirmed") = [] →
      (enqueue_delivery_tasks tx issue_id).issue_delivery_queue =
        tx.issue_delivery_queue) ∧
    ∀ db form u validEmail sendOk,
      idempotencyKeyValid form.idempotency_key = true →
      db.idempotency.find? (idemMatch u form.idempotency_key) = none →
      db.subscriptions.filter (fun s => s.status == "confirmed") = [] →
      (publish_newsletter db form u validEmail sendOk).response =
          .ok (see_other "/admin/newsletters") ∧
        (publish_newsletter db form u validEmail sendOk).sent = [] := by
  refine ⟨?_, ?_, ?_, ?_, ?_⟩
  · simp [enqueue_delivery_tasks]
  · intro s hs
    simp only [enqueue_delivery_tasks, List.mem_append, List.mem_map]
    exact Or.inr ⟨s, hs, rfl⟩
  · intro r hr
    simp only [enqueue_delivery_tasks, List.mem_append, List.mem_map] at hr
    rcases hr with hr | ⟨s, _, hs⟩
    · exact Or.inl hr
    · exact Or.inr (by rw [← hs])
  · intro hzero
    simp [enqueue_delivery_tasks, hzero]
  · intro db form u validEmail sendOk hvalid habsent hzero
    have hstart : try_processing db form.idempotency_key u =
        .ok (.startProcessing
          { db with idempotency := db.idempotency ++ [⟨u, form.idempotency_key, none⟩] }) :=
      (try_processing_start_iff db form.idempotency_key u _).2 ⟨habsent, rfl⟩
    simp [publish_newsletter, idempotencyKeyTryFrom, hvalid, hstart,
      get_confirmed_subscribers, hzero, send_loop, save_response]

/-- C6 witness: one confirmed and one unconfirmed subscriber yield exactly one
queue row referencing the issue; an empty store publishes successfully with
zero sends. -/
theorem enqueue_one_row_per_confirmed_witness :
    ((enqueue_delivery_tasks ⟨[], [], [], [⟨"b@x", "confirmed"⟩, ⟨"a@x", "pending"⟩]⟩
        9).issue_delivery_queue.length = 0 + 1) ∧
      (publish_newsletter ⟨[], [], [], []⟩ ⟨"T", "t", "h", "abc123"⟩ 1
          (fun _ => true) (fun _ => true)).response =
        .ok (see_other "/admin/newsletters") ∧
      (publish_newsletter ⟨[], [], [], []⟩ ⟨"T", "t", "h", "abc123"⟩ 1
          (fun _ => true) (fun _ => true)).sent = [] :=
  ⟨(enqueue_one_row_per_confirmed ⟨[], [], [], [⟨"b@x", "confirmed"⟩, ⟨"a@x", "pending"⟩]⟩
      9).1,
   (enqueue_one_row_per_confirmed ⟨[], [], [], []⟩ 9).2.2.2.2 ⟨[], [], [], []⟩
     ⟨"T", "t", "h", "abc123"⟩ 1 (fun _ => true) (fun _ => true)
     (by decide) (by decide) (by decide)⟩

/-- C8.  An idempotency key that is empty, longer than 50 characters, or
containing a character outside the safe set is rejected with the typed
validation failure mapped to a client error (`e400`) before anything else
happens: the store is unchanged (no idempotency record, issue row or queue
row) and no email is sent. -/
theorem invalid_key_rejected (db : Db) (form : FormData) (u : Uuid)
    (validEmail sendOk : String → Bool)
    (h : form.idempotency_key.isEmpty = true ∨ 50 < form.idempotency_key.length ∨
      ∃ c ∈ form.idempotency_key.data, safeChar c = false) :
    publish_newsletter db form u validEmail sendOk =
      ⟨.error (.badRequest "invalid idempotency key"), db, []⟩ := by
  have hv : idempotencyKeyValid form.idempotency_key = false := by
    unfold idempotencyKeyValid
    rcases h with h | h | ⟨c, hc, hcf⟩
    · simp [h]
    · simp only [Bool.and_eq_false_iff]
      left
      right
      simpa using h
    · simp only [Bool.and_eq_false_iff]
      right
      rw [List.all_eq_false]
      exact ⟨c, hc, by simp [hcf]⟩
  simp [publish_newsletter, idempotencyKeyTryFrom, hv]

/-- C8 witness: a key containing a space is rejected, leaving the store with
its record and the mailbox untouched. -/
theorem invalid_key_rejected_witness :
    publish_newsletter ⟨[⟨3, "other", none⟩], [], [], [⟨"a@x", "confirmed"⟩]⟩
        ⟨"T", "t", "h", "bad key"⟩ 1 (fun _ => true) (fun _ => true) =
      ⟨.error (.badRequest "invalid idempotency key"),
        ⟨[⟨3, "other", none⟩], [], [], [⟨"a@x", "confirmed"⟩]⟩, []⟩ :=
  invalid_key_rejected ⟨[⟨3, "other", none⟩], [], [], [⟨"a@x", "confirmed"⟩]⟩
    ⟨"T", "t", "h", "bad key"⟩ 1 (fun _ => true) (fun _ => true)
    (Or.inr (Or.inr ⟨' ', by decide, by decide⟩))

/-- C5 (code evaluation at the failing input).  Two confirmed subscribers
`b@x` and `a@x`; on the first submission the send to `b@x` succeeds and the
send to `a@x` fails, so the request errors and its transaction rolls the
claim back while the emails already sent stand; the retried submission is
granted ownership again and invokes the EmailSender for `b@x` a second time,
delivering the issue to `b@x` twice in total — the repository's own test
`transient_errors_do_not_cause_duplicate_deliveries_on_retries` expects
exactly one delivery per subscriber. -/
theorem duplicate_delivery_on_retry_eval :
    retryRun1.response = .error (.internalError "Failed to send newsletter issue") ∧
      retryRun1.db = twoSubsDb ∧
      retryRun1.sent = [⟨"b@x", "T", "html", "text", true⟩,
        ⟨"a@x", "T", "html", "text", false⟩] ∧
      retryRun2.sent = [⟨"b@x", "T", "html", "text", true⟩,
        ⟨"a@x", "T", "html", "text", true⟩] ∧
      (retryRun1.sent ++ retryRun2.sent).countP
          (fun s => s.recipient == "b@x" && s.delivered) = 2 := by
  decide

/-- C7 counterexample.  At a store holding a claimed-but-unfinished record for
`(1, "abc123")` — the in-flight duplicate race — `try_processing` does not
surface any retryable conflict condition: it fails with an opaque error
(decoding the NULL response columns), which the route maps to a fatal
internal server error via `e500`. -/
theorem conflict_in_progress_is_fatal_counterexample :
    try_processing pendingClaimDb "abc123" 1 = .error decodeNullMsg ∧
      (publish_newsletter pendingClaimDb ⟨"T", "t", "h", "abc123"⟩ 1
          (fun _ => true) (fun _ => true)).response =
        .error (.internalError decodeNullMsg) := by
  decide

/-- C7 amended.  When the conditional insert claims no row and the existing
record has no cached response yet (a concurrent in-flight duplicate),
`try_processing` fails with an unexpected opaque error — there is no
retryable `ConflictInProgress` variant — and the route surfaces it as a fatal
internal server error, leaving the store unchanged. -/
theorem pending_claim_surfaces_fatal_error (db : Db) (k : String) (u : Uuid)
    (h : idemLookup db.idempotency u k = some none) :
    try_processing db k u = .error decodeNullMsg ∧
      ∀ form validEmail sendOk, form.idempotency_key = k →
        idempotencyKeyValid k = true →
        (publish_newsletter db form u validEmail sendOk).response =
            .error (.internalError decodeNullMsg) ∧
          (publish_newsletter db form u validEmail sendOk).db = db := by
  obtain ⟨r, hr, hsaved⟩ : ∃ r, db.idempotency.find? (idemMatch u k) = some r ∧
      r.saved = none := by
    unfold idemLookup at h
    cases hf : db.idempotency.find? (idemMatch u k) with
    | none => rw [hf] at h; cases h
    | some r =>
      rw [hf] at h
      exact ⟨r, rfl, by simpa using h⟩
  have herr : try_processing db k u = .error decodeNullMsg := by
    simp [try_processing, insertIdempotencyIfAbsent, get_saved_response, hr, hsaved]
  refine ⟨herr, ?_⟩
  intro form validEmail sendOk hkey hvalid
  subst hkey
  constructor
  · simp [publish_newsletter, idempotencyKeyTryFrom, hvalid, herr]
  · simp [publish_newsletter, idempotencyKeyTryFrom, hvalid, herr]

/-- C7 amended witness: the pending-claim store of the counterexample. -/
theorem pending_claim_surfaces_fatal_error_witness :
    try_processing pendingClaimDb "abc123" 1 = .error decodeNullMsg ∧
      (publish_newsletter pendingClaimDb ⟨"T", "t", "h", "abc123"⟩ 1
            (fun _ => true) (fun _ => true)).response =
          .error (.internalError decodeNullMsg) ∧
        (publish_newsletter pendingClaimDb ⟨"T", "t", "h", "abc123"⟩ 1
            (fun _ => true) (fun _ => true)).db = pendingClaimDb :=
  have hmain := pending_claim_surfaces_fatal_error pendingClaimDb "abc123" 1 (by decide)
  ⟨hmain.1, hmain.2 ⟨"T", "t", "h", "abc123"⟩ (fun _ => true) (fun _ => true)
    rfl (by decide)⟩

/-- C4.  Atomicity of claim and effect: when the pair is unclaimed and the
owner's request fails after the claim and before `save_response` commits, the
whole transaction aborts — the committed store is exactly what it was, so no
idempotency record or other store effect remains — and a retried request for
the pair is granted ownership again and executes afresh. -/
theorem owner_failure_aborts (db : Db) (form : FormData) (u : Uuid)
    (validEmail sendOk : String → Bool) (k : String) (e : AppError)
    (hk : idempotencyKeyTryFrom form.idempotency_key = .ok k)
    (habsent : db.idempotency.find? (idemMatch u k) = none)
    (herr : (publish_newsletter db form u validEmail sendOk).response = .error e) :
    (publish_newsletter db form u validEmail sendOk).db = db ∧
      try_processing (publish_newsletter db form u validEmail sendOk).db k u =
        .ok (.startProcessing
          { db with idempotency := db.idempotency ++ [⟨u, k, none⟩] }) := by
  have hstart : try_processing db k u =
      .ok (.startProcessing
        { db with idempotency := db.idempotency ++ [⟨u, k, none⟩] }) :=
    (try_processing_start_iff db k u _).2 ⟨habsent, rfl⟩
  have hdb : (publish_newsletter db form u validEmail sendOk).db = db := by
    simp only [publish_newsletter, hk, hstart]
    cases hloop : send_loop (get_confirmed_subscribers db validEmail) sendOk
        form.title form.html_content form.text_content with
    | mk allOk sent =>
      cases allOk with
      | true =>
        exfalso
        simp only [publish_newsletter, hk, hstart, hloop] at herr
        cases herr
      | false => rfl
  refine ⟨hdb, ?_⟩
  rw [hdb]
  exact hstart

/-- C4 witness: one confirmed subscriber whose send fails; the store is
unchanged and the retry is granted ownership. -/
theorem owner_failure_aborts_witness :
    (publish_newsletter ⟨[], [], [], [⟨"a@x", "confirmed"⟩]⟩ ⟨"T", "t", "h", "abc123"⟩ 1
        (fun _ => true) (fun _ => false)).db =
      ⟨[], [], [], [⟨"a@x", "confirmed"⟩]⟩ ∧
      try_processing
          (publish_newsletter ⟨[], [], [], [⟨"a@x", "confirmed"⟩]⟩
            ⟨"T", "t", "h", "abc123"⟩ 1 (fun _ => true) (fun _ => false)).db "abc123" 1 =
        .ok (.startProcessing ⟨[⟨1, "abc123", none⟩], [], [], [⟨"a@x", "confirmed"⟩]⟩) :=
  owner_failure_aborts ⟨[], [], [], [⟨"a@x", "confirmed"⟩]⟩ ⟨"T", "t", "h", "abc123"⟩ 1
    (fun _ => true) (fun _ => false) "abc123"
    (.internalError "Failed to send newsletter issue")
    (by decide) (by decide) (by decide)

/-- C10.  The replay path is read-only: when a record for the pair already
exists, the conditional insert affects no row and leaves the transaction
state unchanged (the transaction is dropped uncommitted), and the whole
duplicate submission — whether it replays the saved response or errors —
leaves the committed store unchanged and sends no email. -/
theorem replay_path_read_only (db : Db) (form : FormData) (u : Uuid)
    (validEmail sendOk : String → Bool) (k : String)
    (hk : idempotencyKeyTryFrom form.idempotency_key = .ok k)
    (hpresent : (db.idempotency.find? (idemMatch u k)).isSome = true) :
    insertIdempotencyIfAbsent db u k = (0, db) ∧
      (publish_newsletter db form u validEmail sendOk).db = db ∧
      (publish_newsletter db form u validEmail sendOk).sent = [] := by
  have hins : insertIdempotencyIfAbsent db u k = (0, db) := by
    simp [insertIdempotencyIfAbsent, hpresent]
  refine ⟨hins, ?_⟩
  have hnot : ∀ tx, try_processing db k u ≠ .ok (.startProcessing tx) := by
    intro tx hcon
    obtain ⟨hnone, -⟩ := (try_processing_start_iff db k u tx).1 hcon
    rw [hnone] at hpresent
    cases hpresent
  cases htp : try_processing db k u with
  | error e => simp [publish_newsletter, hk, htp]
  | ok act =>
    cases act with
    | startProcessing tx => exact absurd htp (hnot tx)
    | returnSavedResponse resp => simp [publish_newsletter, hk, htp]

/-- C10 witness: a duplicate submission against a finished record replays it
while the store stays unchanged and nothing is sent. -/
theorem replay_path_read_only_witness :
    insertIdempotencyIfAbsent
        ⟨[⟨1, "abc123", some savedRedirect⟩], [], [], [⟨"a@x", "confirmed"⟩]⟩ 1 "abc123" =
      (0, ⟨[⟨1, "abc123", some savedRedirect⟩], [], [], [⟨"a@x", "confirmed"⟩]⟩) ∧
      (publish_newsletter ⟨[⟨1, "abc123", some savedRedirect⟩], [], [], [⟨"a@x", "confirmed"⟩]⟩
          ⟨"T", "t", "h", "abc123"⟩ 1 (fun _ => true) (fun _ => true)).db =
        ⟨[⟨1, "abc123", some savedRedirect⟩], [], [], [⟨"a@x", "confirmed"⟩]⟩ ∧
      (publish_newsletter ⟨[⟨1, "abc123", some savedRedirect⟩], [], [], [⟨"a@x", "confirmed"⟩]⟩
          ⟨"T", "t", "h", "abc123"⟩ 1 (fun _ => true) (fun _ => true)).sent = [] :=
  replay_path_read_only ⟨[⟨1, "abc123", some savedRedirect⟩], [], [], [⟨"a@x", "confirmed"⟩]⟩
    ⟨"T", "t", "h", "abc123"⟩ 1 (fun _ => true) (fun _ => true) "abc123"
    (by decide) (by decide)

/-- C1.  `try_processing` returns `StartProcessing` exactly when no
idempotency record exists for the pair and its conditional insert affects a
row; any call finding a record never receives `StartProcessing`; and along
any serialized trace of requests and worker iterations starting from a state
with no record for the pair, at most one operation ever claims the pair and
runs the owning business logic to commit. -/
theorem owner_claim_at_most_once (db : Db) (k : String) (u : Uuid) :
    ((∃ tx, try_processing db k u = .ok (.startProcessing tx)) ↔
      idemLookup db.idempotency u k = none ∧
        (insertIdempotencyIfAbsent db u k).1 = 1) ∧
    (∀ v, idemLookup db.idempotency u k = some v →
      ∀ tx, try_processing db k u ≠ .ok (.startProcessing tx)) ∧
    (idemLookup db.idempotency u k = none →
      ∀ ops, ownerRuns db ops u k ≤ 1) := by
  have hlookup : idemLookup db.idempotency u k = none ↔
      db.idempotency.find? (idemMatch u k) = none := by
    unfold idemLookup
    cases hf : db.idempotency.find? (idemMatch u k) with
    | none => simp
    | some r => simp
  refine ⟨⟨?_, ?_⟩, ?_, ?_⟩
  · rintro ⟨tx, htx⟩
    obtain ⟨hnone, -⟩ := (try_processing_start_iff db k u tx).1 htx
    exact ⟨hlookup.2 hnone, by simp [insertIdempotencyIfAbsent, hnone]⟩
  · rintro ⟨hnone, -⟩
    exact ⟨_, (try_processing_start_iff db k u _).2 ⟨hlookup.1 hnone, rfl⟩⟩
  · intro v hv tx htx
    obtain ⟨hnone, -⟩ := (try_processing_start_iff db k u tx).1 htx
    unfold idemLookup at hv
    rw [hnone] at hv
    cases hv
  · intro hnone ops
    exact ownerRuns_le_one ops db hnone

/-- C1 witness: two identical publish submissions for a fresh pair — the
trace contains at most one owning run. -/
theorem owner_claim_at_most_once_witness :
    idemLookup (⟨[], [], [], [⟨"a@x", "confirmed"⟩]⟩ : Db).idempotency 1 "abc123" = none ∧
      ownerRuns ⟨[], [], [], [⟨"a@x", "confirmed"⟩]⟩
        [.publish ⟨"T", "t", "h", "abc123"⟩ 1 (fun _ => true) (fun _ => true),
          .publish ⟨"T", "t", "h", "abc123"⟩ 1 (fun _ => true) (fun _ => true)]
        1 "abc123" ≤ 1 :=
  ⟨rfl, (owner_claim_at_most_once ⟨[], [], [], [⟨"a@x", "confirmed"⟩]⟩ "abc123" 1).2.2 rfl _⟩

/-- C9.  Lifecycle of idempotency records: every operation preserves the
uniqueness of the `(user_id, idempotency_key)` pair; an existing record
survives every serialized trace with its value untouched (never deleted and,
once `save_response` has attached the cached response in the same atomic
claim-and-commit step, never mutated again); and a record for a pair comes
into being only through a publish operation granted the claim for that pair
by `try_processing`. -/
theorem idempotency_record_lifecycle (db : Db) (u : Uuid) (k : String) :
    (∀ op, IdemWf db → IdemWf (applyOp db op)) ∧
    (∀ ops v, idemLookup db.idempotency u k = some v →
      idemLookup (runOps db ops).idempotency u k = some v) ∧
    (∀ op, idemLookup db.idempotency u k = none →
      idemLookup (applyOp db op).idempotency u k ≠ none →
      isOwnerRun db u k op = true) := by
  refine ⟨fun op => applyOp_preserves_wf db op, ?_, ?_⟩
  · intro ops v hv
    exact runOps_lookup_of_present ops db hv
  · intro op hnone hsome
    cases hb : isOwnerRun db u k op with
    | true => rfl
    | false =>
      exact absurd (by rw [applyOp_lookup_frame db op u k hb]; exact hnone) hsome

/-- C9 witness: a finished record survives a worker iteration and a foreign
publish unchanged. -/
theorem idempotency_record_lifecycle_witness :
    idemLookup (⟨[⟨2, "zz", some savedRedirect⟩], [], [], []⟩ : Db).idempotency 2 "zz" =
        some (some savedRedirect) ∧
      idemLookup (runOps ⟨[⟨2, "zz", some savedRedirect⟩], [], [], []⟩
          [.workerIteration (fun _ => true) (fun _ => true),
            .publish ⟨"T", "t", "h", "other1"⟩ 4 (fun _ => true) (fun _ => true)]).idempotency
        2 "zz" = some (some savedRedirect) :=
  ⟨by decide,
   (idempotency_record_lifecycle ⟨[⟨2, "zz", some savedRedirect⟩], [], [], []⟩ 2 "zz").2.1
     [.workerIteration (fun _ => true) (fun _ => true),
       .publish ⟨"T", "t", "h", "other1"⟩ 4 (fun _ => true) (fun _ => true)]
     (some savedRedirect) (by decide)⟩

end EmailNewsletter
